import Mathlib

/-!
# Verification of the BabChess search core (`src/engine.cpp`)

Shallow embedding of the alpha-beta search kernel of the BabChess engine:
`Engine::pvSearch`, `Engine::qSearch`, `Engine::idSearch`, `Engine::search`.

The out-of-scope collaborators (`Position`, `MovePicker`, `evaluate`, the
transposition-table storage mechanics and the wall clock) are modelled as an
abstract environment `Env Pos` of pure functions over an abstract position
carrier `Pos`, exactly matching the collaborator contracts of the spec.
`doMove`/`undoMove` pairs are modelled functionally: a child search runs on
`env.doMove pos m` and the parent keeps using its own `pos`, which is the
make/unmake discipline of the source.

Machine integers (`Score`, i.e. C++ `int`) are modelled as `Int`; all score
arithmetic in the source stays far below 2^31, so no wraparound modelling is
needed.  Search recursion is driven by an explicit fuel counter; the source
terminates because `ply` is capped at `MAX_PLY`, and every theorem is stated
at non-zero fuel so the fuel artifact is never load-bearing.

Each search function returns, besides the score, the threaded mutable state
and an `ExitKind` tag recording which `return` statement of the source body
produced the result, plus the produced PV; this instrumentation adds no
behaviour, it only makes the control-flow path observable.
-/

namespace BabChess

/-- Scores are C++ `int` values. -/
abbrev Score := Int

/-- Moves are opaque values with a distinguished `MOVE_NONE` (spec §3). -/
abbrev Move := Nat

/-- Modelled from the spec: `SCORE_DRAW = 0` (`engine.h`/`types.h` are not in `src/`). -/
def SCORE_DRAW : Score := 0

/-- Modelled from the spec: magnitude of a mate-at-root score; any value with
`SCORE_DRAW < SCORE_MATE < SCORE_INFINITE` works, the claims only use the ordering. -/
def SCORE_MATE : Score := 32000

/-- Modelled from the spec: `SCORE_INFINITE` is greater than any real score. -/
def SCORE_INFINITE : Score := 32001

/-- Modelled from the spec: sentinel meaning "no score recorded", unequal to every real score. -/
def SCORE_NONE : Score := 32002

/-- Modelled from the spec: compile-time recursion cap, "typically 128". -/
def MAX_PLY : Nat := 128

/-- Modelled from the spec: the distinguished null move. -/
def MOVE_NONE : Move := 0

/-- TT bound tag (spec §3). -/
inductive Bound
  | NONE
  | EXACT
  | LOWER
  | UPPER
  deriving DecidableEq

/-- Node type of `pvSearch` (spec §3): `Root` is a refinement of `PV`. -/
inductive NodeType
  | Root
  | PV
  | NonPV
  deriving DecidableEq

/-- Source: `constexpr bool PvNode = (NT != NodeType::NonPV)` (engine.cpp:312). -/
def PvNode : NodeType → Bool
  | NodeType.NonPV => false
  | _ => true

/-- Source: `constexpr bool RootNode = (NT == NodeType::Root)` (engine.cpp:313). -/
def RootNode : NodeType → Bool
  | NodeType.Root => true
  | _ => false

/-- Logical shape of a transposition-table entry (spec §3); the score is kept
in its stored (ply-adjusted) form. -/
structure TTEntry where
  depth : Int
  bound : Bound
  move : Move
  scoreStored : Score
  staticEval : Score
  deriving DecidableEq

/-- Modelled from the spec: when storing, a mate score is converted to
"mate distance from this node" by moving it away from zero by `ply`
(`tt.h` is not in `src/`); non-mate scores pass through. -/
def scoreToTT (s : Score) (ply : Nat) : Score :=
  if s ≥ SCORE_MATE - (MAX_PLY : Int) then s + (ply : Int)
  else if s ≤ -(SCORE_MATE - (MAX_PLY : Int)) then s - (ply : Int)
  else s

/-- Modelled from the spec: `tte->score(ply)` — the stored score re-adjusted to
the probing node's ply; `SCORE_NONE` passes through unchanged so that the
`!= SCORE_NONE` guard of the cutoff is meaningful. -/
def scoreFromTT (s : Score) (ply : Nat) : Score :=
  if s = SCORE_NONE then SCORE_NONE
  else if s ≥ SCORE_MATE - (MAX_PLY : Int) then s - (ply : Int)
  else if s ≤ -(SCORE_MATE - (MAX_PLY : Int)) then s + (ply : Int)
  else s

/-- The source's `tte->score(ply)`. -/
def tteScore (e : TTEntry) (ply : Nat) : Score :=
  scoreFromTT e.scoreStored ply

/-- Modelled from the spec (§4.2): `tte->boundMatch(alpha, beta, ply)` — the
ply-adjusted stored score is sufficient for the window. -/
def ttBoundMatch (e : TTEntry) (alpha beta : Score) (ply : Nat) : Bool :=
  decide (e.bound = Bound.EXACT) ||
    (decide (e.bound = Bound.LOWER) && decide (tteScore e ply ≥ beta)) ||
    (decide (e.bound = Bound.UPPER) && decide (tteScore e ply ≤ alpha))

/-- Record of one `tt.set(...)` call, with the raw argument values
(engine.cpp:408 and engine.cpp:511). -/
structure TTWrite where
  hash : Nat
  depth : Int
  ply : Nat
  bound : Bound
  move : Move
  staticEval : Score
  score : Score
  pvFlag : Bool
  deriving DecidableEq

/-- The mutable state threaded through a search: node counter, the abort flag
(`Engine::aborted`), the transposition table (an association map keyed by the
position hash, newest entry first) and a log of every `tt.set` performed,
newest first (pure instrumentation). -/
structure SState where
  nbNodes : Nat
  aborted : Bool
  tt : List (Nat × TTEntry)
  ttLog : List TTWrite
  deriving DecidableEq

/-- Probe `tt.get(hash)`: `ttHit` is `(ttGet st h).isSome`. -/
def ttGet (st : SState) (h : Nat) : Option TTEntry :=
  st.tt.lookup h

/-- The move-ordering hint taken from a probe: `ttHit ? tte->move() : MOVE_NONE`. -/
def ttHitMove : Option TTEntry → Move
  | some e => e.move
  | none => MOVE_NONE

/-- Store `tt.set(tte, hash, depth, ply, bound, move, staticEval, score, pvFlag)`:
stores the entry (score converted to stored form) and logs the raw call. -/
def ttSet (st : SState) (h : Nat) (depth : Int) (ply : Nat) (bound : Bound)
    (move : Move) (staticEval score : Score) (pvFlag : Bool) : SState :=
  { st with
    tt := (h, ⟨depth, bound, move, scoreToTT score ply, staticEval⟩) :: st.tt,
    ttLog := ⟨h, depth, ply, bound, move, staticEval, score, pvFlag⟩ :: st.ttLog }

/-- The collaborator environment (spec §6): position predicates, evaluation,
move application, the two `MovePicker` instantiations (already seeded with the
TT hint move), the stop condition of `SearchData::shouldStop` as a function of
the node counter (wall-clock time folded into it), and the value of an
uninitialized C++ `Score` local (`uninit`), needed to model the `score`
variable of the move loop faithfully. -/
structure Env (Pos : Type) where
  inCheck : Pos → Bool
  isFiftyMoveDraw : Pos → Bool
  isMaterialDraw : Pos → Bool
  isRepetitionDraw : Pos → Bool
  hash : Pos → Nat
  evalFn : Pos → Score
  doMove : Pos → Move → Pos
  mainMoves : Pos → Move → List Move
  quiescMoves : Pos → Move → List Move
  shouldStop : Nat → Bool
  uninit : Score

/-- The slice of `SearchLimits` the modelled code reads. -/
structure Limits where
  searchMoves : List Move
  maxDepth : Int
  deriving DecidableEq

/-- The draw test `pos.isFiftyMoveDraw() || pos.isMaterialDraw() || pos.isRepetitionDraw()`. -/
def isDraw {Pos : Type} (env : Env Pos) (pos : Pos) : Bool :=
  env.isFiftyMoveDraw pos || env.isMaterialDraw pos || env.isRepetitionDraw pos

/-- Which `return` statement of the source body produced the result. -/
inductive ExitKind
  | outOfFuel
  | aborted
  | draw
  | plyCeiling
  | ttCutoff
  | standPat
  | loopAbort
  | noMoves
  | normal
  deriving DecidableEq

/-- Result of a search call: score, threaded state, exit tag, produced PV. -/
structure SearchResult where
  score : Score
  st : SState
  exitKind : ExitKind
  pv : List Move
  deriving DecidableEq

/-- The locals of a move loop: threaded state, `nbMoves`, `alpha`,
`bestScore`, `bestMove` and the node's `pv` buffer. -/
structure LoopState where
  st : SState
  nbMoves : Nat
  alpha : Score
  bestScore : Score
  bestMove : Move
  pv : List Move
  deriving DecidableEq

/-- Source: `if (sd.shouldStop()) stop();` — the state after the entry limit check of
`qSearch` (engine.cpp:419-421), also used by `pvSearch` at non-root nodes. -/
def qEntryState {Pos : Type} (env : Env Pos) (st : SState) : SState :=
  if env.shouldStop st.nbNodes then { st with aborted := true } else st

/-- Source: `if (!RootNode && sd.shouldStop()) stop();` (engine.cpp:322-324). -/
def pvEntryState {Pos : Type} (env : Env Pos) (nt : NodeType) (st : SState) : SState :=
  if !RootNode nt && env.shouldStop st.nbNodes then { st with aborted := true } else st

/-- One iteration of the quiescence move loop (the lambda of
engine.cpp:481-505): make the move, recurse with the negated window, negate
the child score, and apply the fail-soft update; the second component is the
`break` flag. -/
def qLoopStep {Pos : Type} (env : Env Pos)
    (child : Score → Score → Pos → SState → SearchResult)
    (beta : Score) (pos : Pos) (m : Move) (ls : LoopState) : LoopState × Bool :=
  let st1 : SState := { ls.st with nbNodes := ls.st.nbNodes + 1 }
  let r := child (-beta) (-ls.alpha) (env.doMove pos m) st1
  let score : Score := -r.score
  let ls1 : LoopState := { ls with st := r.st, nbMoves := ls.nbMoves + 1 }
  if r.st.aborted then (ls1, true)
  else if score > ls1.bestScore then
    let ls2 : LoopState := { ls1 with bestScore := score }
    if ls2.bestScore > ls2.alpha then
      let ls3 : LoopState := { ls2 with bestMove := m, alpha := ls2.bestScore, pv := m :: r.pv }
      if ls3.alpha ≥ beta then (ls3, true) else (ls3, false)
    else (ls2, false)
  else (ls1, false)

/-- The enumeration `mp.enumerate(...)` for the quiescence loop. -/
def qLoop {Pos : Type} (env : Env Pos)
    (child : Score → Score → Pos → SState → SearchResult)
    (beta : Score) (pos : Pos) : List Move → LoopState → LoopState
  | [], ls => ls
  | m :: ms, ls =>
    let so := qLoopStep env child beta pos m ls
    if so.2 then so.1 else qLoop env child beta pos ms so.1

/-- The part of `qSearch` from the TT probe for the ordering hint onwards
(engine.cpp:474-513): run the move loop, handle the post-loop abort, store the
TT entry (`depth = inCheck ? 1 : 0`, `staticEval = eval`) and return
`bestScore`. -/
def qLoopPhase {Pos : Type} (env : Env Pos)
    (child : Score → Score → Pos → SState → SearchResult)
    (beta alphaOrig : Score) (ply : Nat) (pos : Pos) (inCheck : Bool) (eval : Score)
    (st : SState) (alpha1 bestScore1 : Score) : SearchResult :=
  let moves := env.quiescMoves pos (ttHitMove (ttGet st (env.hash pos)))
  let ls := qLoop env child beta pos moves ⟨st, 0, alpha1, bestScore1, MOVE_NONE, []⟩
  if ls.st.aborted then ⟨ls.bestScore, ls.st, ExitKind.loopAbort, ls.pv⟩
  else
    let ttBound : Bound :=
      if ls.bestScore ≥ beta then Bound.LOWER
      else if ls.bestScore ≤ alphaOrig then Bound.UPPER
      else Bound.EXACT
    let st' := ttSet ls.st (env.hash pos) (if inCheck then 1 else 0) ply ttBound
      ls.bestMove eval ls.bestScore false
    ⟨ls.bestScore, st', ExitKind.normal, ls.pv⟩

/-- Model of `Engine::qSearch` (engine.cpp:414-514), on explicit fuel. -/
def qSearch {Pos : Type} (env : Env Pos) :
    Nat → Score → Score → Int → Nat → Pos → SState → SearchResult
  | 0, _, _, _, _, _, st => ⟨0, st, ExitKind.outOfFuel, []⟩
  | fuel + 1, alpha, beta, depth, ply, pos, st =>
    let st1 := qEntryState env st
    if st1.aborted then ⟨-SCORE_INFINITE, st1, ExitKind.aborted, []⟩
    else if isDraw env pos then ⟨SCORE_DRAW, st1, ExitKind.draw, []⟩
    else if ply ≥ MAX_PLY then ⟨env.evalFn pos, st1, ExitKind.plyCeiling, []⟩
    else
      let inCheck := env.inCheck pos
      let eval : Score := if inCheck then SCORE_NONE else env.evalFn pos
      if inCheck = false ∧ eval ≥ beta then ⟨eval, st1, ExitKind.standPat, []⟩
      else
        let alpha1 : Score := if inCheck = false ∧ eval > alpha then eval else alpha
        let bestScore1 : Score := if inCheck then -SCORE_MATE + (ply : Int) else eval
        qLoopPhase env (fun a b p s => qSearch env fuel a b (depth - 1) (ply + 1) p s)
          beta alpha ply pos inCheck eval st1 alpha1 bestScore1

/-- Source: `if (RootNode && sd.limits.searchMoves.size() > 0 && !sd.limits.searchMoves.contains(move))`
(engine.cpp:361): the UCI `searchmoves` root filter. -/
def skipMove (nt : NodeType) (searchMoves : List Move) (m : Move) : Bool :=
  RootNode nt && decide (searchMoves.length > 0) && !searchMoves.contains m

/-- One iteration of the main move loop (the lambda of engine.cpp:359-397):
the `searchmoves` filter, the PVS scout / re-search scheme, the abort check
and the fail-soft update.  `calls` logs every recursive `pvSearch` invocation
as (node type, child alpha, child beta) — pure instrumentation.  An
uninitialized `Score score;` is modelled by `env.uninit`; it is only kept when
the scout did not run. -/
structure StepOut where
  ls : LoopState
  brk : Bool
  skipped : Bool
  calls : List (NodeType × Score × Score)
  deriving DecidableEq

def pvLoopStep {Pos : Type} (env : Env Pos) (nt : NodeType) (searchMoves : List Move)
    (child : NodeType → Score → Score → Pos → SState → SearchResult)
    (beta : Score) (pos : Pos) (m : Move) (ls : LoopState) : StepOut :=
  if skipMove nt searchMoves m then ⟨ls, false, true, []⟩
  else
    let nbMoves := ls.nbMoves + 1
    let st1 : SState := { ls.st with nbNodes := ls.st.nbNodes + 1 }
    let pos' := env.doMove pos m
    let doScout : Bool := !PvNode nt || decide (nbMoves > 1)
    let r1 := child NodeType.NonPV (-ls.alpha - 1) (-ls.alpha) pos' st1
    let score1 : Score := if doScout then -r1.score else env.uninit
    let st2 : SState := if doScout then r1.st else st1
    let doFull : Bool := PvNode nt &&
      (decide (nbMoves = 1) ||
        (decide (score1 > ls.alpha) && (RootNode nt || decide (score1 < beta))))
    let r2 := child NodeType.PV (-beta) (-ls.alpha) pos' st2
    let score : Score := if doFull then -r2.score else score1
    let st3 : SState := if doFull then r2.st else st2
    let cpv : List Move := if doFull then r2.pv else r1.pv
    let calls : List (NodeType × Score × Score) :=
      (if doScout then [(NodeType.NonPV, -ls.alpha - 1, -ls.alpha)] else []) ++
        (if doFull then [(NodeType.PV, -beta, -ls.alpha)] else [])
    let ls1 : LoopState := { ls with st := st3, nbMoves := nbMoves }
    if st3.aborted then ⟨ls1, true, false, calls⟩
    else if score > ls1.bestScore then
      let ls2 : LoopState := { ls1 with bestScore := score }
      if ls2.bestScore > ls2.alpha then
        let ls3 : LoopState := { ls2 with bestMove := m, alpha := ls2.bestScore, pv := m :: cpv }
        if ls3.alpha ≥ beta then ⟨ls3, true, false, calls⟩ else ⟨ls3, false, false, calls⟩
      else ⟨ls2, false, false, calls⟩
    else ⟨ls1, false, false, calls⟩

/-- The enumeration `mp.enumerate(...)` for the main move loop. -/
def pvLoop {Pos : Type} (env : Env Pos) (nt : NodeType) (searchMoves : List Move)
    (child : NodeType → Score → Score → Pos → SState → SearchResult)
    (beta : Score) (pos : Pos) : List Move → LoopState → LoopState
  | [], ls => ls
  | m :: ms, ls =>
    let so := pvLoopStep env nt searchMoves child beta pos m ls
    if so.brk then so.ls else pvLoop env nt searchMoves child beta pos ms so.ls

/-- The part of `pvSearch` from the `MovePicker` construction onwards
(engine.cpp:355-410): run the move loop, handle the post-loop abort, handle
the checkmate/stalemate terminal case (engine.cpp:400-403), store the TT entry
and return `bestScore`.  `alpha` is the node's `alphaOrig`. -/
def pvLoopPhase {Pos : Type} (env : Env Pos) (nt : NodeType) (searchMoves : List Move)
    (child : NodeType → Score → Score → Pos → SState → SearchResult)
    (alpha beta : Score) (depth : Int) (ply : Nat) (pos : Pos) (inCheck : Bool)
    (ttMove : Move) (st : SState) : SearchResult :=
  let moves := env.mainMoves pos ttMove
  let ls := pvLoop env nt searchMoves child beta pos moves
    ⟨st, 0, alpha, -SCORE_INFINITE, MOVE_NONE, []⟩
  if ls.st.aborted then ⟨ls.bestScore, ls.st, ExitKind.loopAbort, ls.pv⟩
  else if ls.nbMoves = 0 then
    ⟨if inCheck then -SCORE_MATE + (ply : Int) else SCORE_DRAW, ls.st, ExitKind.noMoves, ls.pv⟩
  else
    let ttBound : Bound :=
      if ls.bestScore ≥ beta then Bound.LOWER
      else if !PvNode nt || decide (ls.bestScore ≤ alpha) then Bound.UPPER
      else Bound.EXACT
    let st' := ttSet ls.st (env.hash pos) depth ply ttBound ls.bestMove SCORE_NONE
      ls.bestScore false
    ⟨ls.bestScore, st', ExitKind.normal, ls.pv⟩

/-- Model of `Engine::pvSearch` (engine.cpp:310-411), on explicit fuel. -/
def pvSearch {Pos : Type} (env : Env Pos) (limits : Limits) :
    Nat → NodeType → Score → Score → Int → Nat → Pos → SState → SearchResult
  | 0, _, _, _, _, _, _, st => ⟨0, st, ExitKind.outOfFuel, []⟩
  | fuel + 1, nt, alpha, beta, depth, ply, pos, st =>
    if depth ≤ 0 then qSearch env (fuel + 1) alpha beta depth ply pos st
    else
      let st1 := pvEntryState env nt st
      if !RootNode nt && st1.aborted then ⟨-SCORE_INFINITE, st1, ExitKind.aborted, []⟩
      else if isDraw env pos then ⟨SCORE_DRAW, st1, ExitKind.draw, []⟩
      else if ply ≥ MAX_PLY then ⟨env.evalFn pos, st1, ExitKind.plyCeiling, []⟩
      else
        let child := fun nt' a b p s =>
          pvSearch env limits fuel nt' a b (depth - 1) (ply + 1) p s
        match ttGet st1 (env.hash pos) with
        | some e =>
          if PvNode nt = false ∧ e.depth ≥ depth ∧ tteScore e ply ≠ SCORE_NONE ∧
              ttBoundMatch e alpha beta ply = true then
            ⟨tteScore e ply, st1, ExitKind.ttCutoff, []⟩
          else
            pvLoopPhase env nt limits.searchMoves child alpha beta depth ply pos
              (env.inCheck pos) e.move st1
        | none =>
          pvLoopPhase env nt limits.searchMoves child alpha beta depth ply pos
            (env.inCheck pos) MOVE_NONE st1

/-- Observable actions of the iterative-deepening driver, in program order:
`onSearchProgress`, `onSearchFinish`, and the final `searching = false`. -/
inductive Action
  | progress (depth : Nat) (pv : List Move) (score : Score)
  | finish (depth : Nat) (pv : List Move) (score : Score)
  | clearSearching
  deriving DecidableEq

/-- Returns `true` exactly on `Action.progress` events. -/
def Action.isProgress : Action → Bool
  | Action.progress _ _ _ => true
  | _ => false

/-- Number of `Action.finish` events in a trace. -/
def countFinish (tr : List Action) : Nat :=
  tr.countP fun a => match a with | Action.finish _ _ _ => true | _ => false

/-- The best-so-far data of `idSearch`: `completedDepth`, `bestPv`, `bestScore`. -/
structure Best where
  completedDepth : Nat
  pv : List Move
  score : Score
  deriving DecidableEq

/-- Result of the iterative-deepening loop: emitted progress events, the final
value of the loop variable `depth`, the accepted best data, final state. -/
structure IdOut where
  trace : List Action
  depth : Nat
  best : Best
  st : SState
  deriving DecidableEq

/-- Fuel ample for a full `MAX_PLY`-capped search tree walk. -/
def searchFuel : Nat := MAX_PLY + 2

/-- The `for (depth = 1; depth < MAX_PLY; depth++)` loop of `Engine::idSearch`
(engine.cpp:284-299): run a root search with the full window, discard the
result and break when `depth > 1 && searchAborted()`, otherwise adopt
`(pv, score)` at `completedDepth = depth`, emit a progress event and stop when
`maxDepth > 0 && depth >= maxDepth`. -/
def idLoop {Pos : Type} (env : Env Pos) (limits : Limits) (pos : Pos) :
    Nat → Nat → SState → Best → IdOut
  | 0, depth, st, best => ⟨[], depth, best, st⟩
  | fuel + 1, depth, st, best =>
    if depth < MAX_PLY then
      let r := pvSearch env limits searchFuel NodeType.Root (-SCORE_INFINITE) SCORE_INFINITE
        (depth : Int) 0 pos st
      if depth > 1 ∧ r.st.aborted = true then ⟨[], depth, best, r.st⟩
      else
        let best' : Best := ⟨depth, r.pv, r.score⟩
        let ev := Action.progress depth r.pv r.score
        if limits.maxDepth > 0 ∧ (depth : Int) ≥ limits.maxDepth then ⟨[ev], depth, best', r.st⟩
        else
          let out := idLoop env limits pos fuel (depth + 1) r.st best'
          ⟨ev :: out.trace, out.depth, out.best, out.st⟩
    else ⟨[], depth, best, st⟩

/-- Model of `Engine::idSearch` (engine.cpp:279-307): run the deepening loop starting
from depth 1 with uninitialized `bestScore`, then — if the final loop `depth`
differs from `completedDepth` — emit one more progress event carrying the
accepted PV and score, emit the finish event, and finally clear `searching`.
Returns the full action trace together with the loop output. -/
def idSearch {Pos : Type} (env : Env Pos) (limits : Limits) (pos : Pos) (st : SState) :
    List Action × IdOut :=
  let out := idLoop env limits pos MAX_PLY 1 st ⟨0, [], env.uninit⟩
  (out.trace ++
      ((if out.depth ≠ out.best.completedDepth then
          [Action.progress out.depth out.best.pv out.best.score]
        else []) ++
        [Action.finish out.depth out.best.pv out.best.score, Action.clearSearching]),
    out)

/-- The engine facade state read and written by `Engine::search` (engine.cpp:260-271). -/
structure EngineSt (Pos : Type) where
  searching : Bool
  aborted : Bool
  tt : List (Nat × TTEntry)
  rootPos : Pos

/-- The snapshot handed to the dispatched worker: `SearchData data(position(), limits)`. -/
structure SearchDataInit (Pos : Type) where
  pos : Pos
  limits : Limits

/-- Model of `Engine::search(limits)` (engine.cpp:260-271): reentry guard, snapshot the
root position, clear `aborted`, set `searching`, clear the TT, dispatch the
worker.  The second component is the dispatched worker's snapshot (`none` when
no worker is dispatched). -/
def engineSearch {Pos : Type} (e : EngineSt Pos) (limits : Limits) :
    EngineSt Pos × Option (SearchDataInit Pos) :=
  if e.searching then (e, none)
  else ({ e with aborted := false, searching := true, tt := [] }, some ⟨e.rootPos, limits⟩)

/-! ## Concrete instances used by the witness theorems -/

/-- An empty search-limits value. -/
def limits0 : Limits := ⟨[], 0⟩

/-- A fresh search state. -/
def st0 : SState := ⟨0, false, [], []⟩

/-- A search state whose abort flag is already set (e.g. a stale `stop()` from
the previous iteration). -/
def stAborted : SState := ⟨0, true, [], []⟩

/-- A minimal collaborator environment over the trivial position carrier:
no check, no draw, no legal moves, static eval 5, no stop condition. -/
def envBase : Env Unit := {
  inCheck := fun _ => false
  isFiftyMoveDraw := fun _ => false
  isMaterialDraw := fun _ => false
  isRepetitionDraw := fun _ => false
  hash := fun _ => 0
  evalFn := fun _ => 5
  doMove := fun p _ => p
  mainMoves := fun _ _ => []
  quiescMoves := fun _ _ => []
  shouldStop := fun _ => false
  uninit := 0 }

/-- Variant of `envBase` where the fifty-move draw predicate holds. -/
def envDraw : Env Unit := { envBase with isFiftyMoveDraw := fun _ => true }

/-- Variant of `envBase` with a single legal move (move 4). -/
def envOneMove : Env Unit := { envBase with mainMoves := fun _ _ => [4] }

/-- Variant of `envBase` hashing to key 7, for transposition-table probes. -/
def envTT : Env Unit := { envBase with hash := fun _ => 7 }

/-- A state whose TT holds, at key 7, an EXACT entry of depth 5 and stored
score 3. -/
def stTT : SState := ⟨0, false, [(7, ⟨5, Bound.EXACT, 9, 3, SCORE_NONE⟩)], []⟩

/-! ## Helper lemmas -/

theorem qLoopPhase_exitKind {Pos : Type} (env : Env Pos)
    (child : Score → Score → Pos → SState → SearchResult)
    (beta alphaOrig : Score) (ply : Nat) (pos : Pos) (inCheck : Bool) (eval : Score)
    (st : SState) (alpha1 bestScore1 : Score) :
    (qLoopPhase env child beta alphaOrig ply pos inCheck eval st alpha1 bestScore1).exitKind =
      ExitKind.loopAbort ∨
    (qLoopPhase env child beta alphaOrig ply pos inCheck eval st alpha1 bestScore1).exitKind =
      ExitKind.normal := by
  simp only [qLoopPhase]
  split
  · exact Or.inl rfl
  · exact Or.inr rfl

theorem exitKind_ne_ttCutoff_of_loop {res : SearchResult}
    (h : res.exitKind = ExitKind.loopAbort ∨ res.exitKind = ExitKind.normal) :
    res.exitKind ≠ ExitKind.ttCutoff := by
  rcases h with h | h <;> simp [h]

theorem qSearch_exitKind_ne_ttCutoff {Pos : Type} (env : Env Pos) (fuel : Nat)
    (alpha beta : Score) (depth : Int) (ply : Nat) (pos : Pos) (st : SState) :
    (qSearch env fuel alpha beta depth ply pos st).exitKind ≠ ExitKind.ttCutoff := by
  match fuel with
  | 0 => simp [qSearch]
  | fuel + 1 =>
    simp only [qSearch]
    repeat' split
    all_goals
      first
      | exact exitKind_ne_ttCutoff_of_loop (qLoopPhase_exitKind _ _ _ _ _ _ _ _ _ _ _)
      | simp

theorem ttGet_pvEntryState {Pos : Type} (env : Env Pos) (nt : NodeType) (st : SState)
    (h : Nat) : ttGet (pvEntryState env nt st) h = ttGet st h := by
  simp only [pvEntryState]
  split <;> rfl

theorem pvLoopPhase_exitKind {Pos : Type} (env : Env Pos) (nt : NodeType)
    (searchMoves : List Move)
    (child : NodeType → Score → Score → Pos → SState → SearchResult)
    (alpha beta : Score) (depth : Int) (ply : Nat) (pos : Pos) (inCheck : Bool)
    (ttMove : Move) (st : SState) :
    (pvLoopPhase env nt searchMoves child alpha beta depth ply pos inCheck ttMove st).exitKind =
        ExitKind.loopAbort ∨
    (pvLoopPhase env nt searchMoves child alpha beta depth ply pos inCheck ttMove st).exitKind =
        ExitKind.noMoves ∨
    (pvLoopPhase env nt searchMoves child alpha beta depth ply pos inCheck ttMove st).exitKind =
        ExitKind.normal := by
  simp only [pvLoopPhase]
  repeat' split
  all_goals simp

theorem exitKind_ne_ttCutoff_of_pvLoop {res : SearchResult}
    (h : res.exitKind = ExitKind.loopAbort ∨ res.exitKind = ExitKind.noMoves ∨
      res.exitKind = ExitKind.normal) :
    res.exitKind ≠ ExitKind.ttCutoff := by
  rcases h with h | h | h <;> simp [h]

theorem pvLoop_all_skipped {Pos : Type} (env : Env Pos) (nt : NodeType)
    (searchMoves : List Move)
    (child : NodeType → Score → Score → Pos → SState → SearchResult)
    (beta : Score) (pos : Pos) (moves : List Move) (ls : LoopState)
    (h : ∀ m ∈ moves, skipMove nt searchMoves m = true) :
    pvLoop env nt searchMoves child beta pos moves ls = ls := by
  induction moves with
  | nil => rfl
  | cons m ms ih =>
    have hm : skipMove nt searchMoves m = true := h m (List.mem_cons_self m ms)
    simp only [pvLoop, pvLoopStep, hm, if_true]
    exact ih fun x hx => h x (List.mem_cons_of_mem m hx)

theorem idLoop_trace_progress {Pos : Type} (env : Env Pos) (limits : Limits) (pos : Pos)
    (fuel : Nat) (d : Nat) (st : SState) (best : Best) :
    ∀ a ∈ (idLoop env limits pos fuel d st best).trace, a.isProgress = true := by
  induction fuel generalizing d st best with
  | zero => simp [idLoop]
  | succ fuel ih =>
    simp only [idLoop]
    split
    · split
      · simp
      · split
        · intro a ha
          simp only [List.mem_singleton] at ha
          subst ha; rfl
        · intro a ha
          simp only [List.mem_cons] at ha
          rcases ha with rfl | ha
          · rfl
          · exact ih _ _ _ a ha
    · simp

theorem idLoop_best_cases {Pos : Type} (env : Env Pos) (limits : Limits) (pos : Pos)
    (fuel : Nat) (d : Nat) (st : SState) (best : Best) :
    (idLoop env limits pos fuel d st best).best = best ∨
      d ≤ (idLoop env limits pos fuel d st best).best.completedDepth := by
  induction fuel generalizing d st best with
  | zero => exact Or.inl rfl
  | succ fuel ih =>
    simp only [idLoop]
    split
    · split
      · exact Or.inl rfl
      · split
        · exact Or.inr (Nat.le_refl d)
        · rcases ih (d + 1)
            (pvSearch env limits searchFuel NodeType.Root (-SCORE_INFINITE) SCORE_INFINITE
              (d : Int) 0 pos st).st
            ⟨d, (pvSearch env limits searchFuel NodeType.Root (-SCORE_INFINITE) SCORE_INFINITE
              (d : Int) 0 pos st).pv,
              (pvSearch env limits searchFuel NodeType.Root (-SCORE_INFINITE) SCORE_INFINITE
              (d : Int) 0 pos st).score⟩ with h | h
          · exact Or.inr (le_of_eq (congrArg Best.completedDepth h).symm)
          · exact Or.inr (Nat.le_of_succ_le h)
    · exact Or.inl rfl

theorem pvLoopPhase_no_moves {Pos : Type} (env : Env Pos) (nt : NodeType)
    (searchMoves : List Move)
    (child : NodeType → Score → Score → Pos → SState → SearchResult)
    (alpha beta : Score) (depth : Int) (ply : Nat) (pos : Pos) (inCheck : Bool)
    (ttMove : Move) (st : SState) (habort : st.aborted = false)
    (hmoves : ∀ m ∈ env.mainMoves pos ttMove, skipMove nt searchMoves m = true) :
    pvLoopPhase env nt searchMoves child alpha beta depth ply pos inCheck ttMove st =
      ⟨if inCheck then -SCORE_MATE + (ply : Int) else SCORE_DRAW, st,
        ExitKind.noMoves, []⟩ := by
  simp only [pvLoopPhase]
  rw [pvLoop_all_skipped env nt searchMoves child beta pos _ _ hmoves]
  simp [habort]

/-! ## Claim theorems -/

/-- C2 (confirmed): for every position where one of the three draw predicates
holds, any `pvSearch` call and any `qSearch` call (at non-zero fuel) that does
not return through the entry abort path returns exactly `SCORE_DRAW`
(engine.cpp:337-341 and engine.cpp:434-438). -/
theorem C2_draw_score {Pos : Type} (env : Env Pos) (limits : Limits) (nt : NodeType) (n : Nat)
    (alpha beta : Score) (depth : Int) (ply : Nat) (pos : Pos) (st : SState)
    (hdraw : isDraw env pos = true) :
    ((pvSearch env limits (n + 1) nt alpha beta depth ply pos st).exitKind ≠ ExitKind.aborted →
      (pvSearch env limits (n + 1) nt alpha beta depth ply pos st).score = SCORE_DRAW) ∧
    ((qSearch env (n + 1) alpha beta depth ply pos st).exitKind ≠ ExitKind.aborted →
      (qSearch env (n + 1) alpha beta depth ply pos st).score = SCORE_DRAW) := by
  have hq : (qSearch env (n + 1) alpha beta depth ply pos st).exitKind ≠ ExitKind.aborted →
      (qSearch env (n + 1) alpha beta depth ply pos st).score = SCORE_DRAW := by
    simp only [qSearch, hdraw]
    split
    · intro h; simp at h
    · intro _; rfl
  refine ⟨?_, hq⟩
  simp only [pvSearch, hdraw]
  split
  · exact hq
  · split
    · intro h; simp at h
    · intro _; rfl

theorem C2_witness :
    ((pvSearch envDraw limits0 1 NodeType.Root 0 1 1 0 () st0).exitKind ≠ ExitKind.aborted →
      (pvSearch envDraw limits0 1 NodeType.Root 0 1 1 0 () st0).score = SCORE_DRAW) ∧
    ((qSearch envDraw 1 0 1 1 0 () st0).exitKind ≠ ExitKind.aborted →
      (qSearch envDraw 1 0 1 1 0 () st0).score = SCORE_DRAW) :=
  C2_draw_score envDraw limits0 NodeType.Root 0 0 1 1 0 () st0 rfl

/-- C1 (counterexample to the claim as stated): a root `pvSearch` call entered
with the abort flag already set (reachable: `stop()` lands between two
iterative-deepening iterations) passes every pre-loop gate, runs the move loop
(exit tag `loopAbort` is produced only after the loop), yields zero moves
(`mainMoves` is empty) and the side to move is not in check — yet the returned
score is `-SCORE_INFINITE` (engine.cpp:398), not `SCORE_DRAW` as the claim
requires. -/
theorem C1_counterexample :
    (pvSearch envBase limits0 1 NodeType.Root 0 1 1 0 () stAborted).exitKind =
        ExitKind.loopAbort ∧
    envBase.mainMoves () MOVE_NONE = [] ∧
    envBase.inCheck () = false ∧
    (pvSearch envBase limits0 1 NodeType.Root 0 1 1 0 () stAborted).score = -SCORE_INFINITE ∧
    (pvSearch envBase limits0 1 NodeType.Root 0 1 1 0 () stAborted).score ≠ SCORE_DRAW := by
  refine ⟨rfl, rfl, rfl, rfl, ?_⟩
  decide

/-- C1 (amended, confirmed): for every `pvSearch` call that reaches the move
loop (depth ≥ 1, not aborted at entry, no draw, below the ply ceiling, no TT
cutoff), yields zero moves, and is *not aborted when the loop finishes*, the
returned score is exactly `-SCORE_MATE + ply` when the side to move is in
check and `SCORE_DRAW` otherwise (engine.cpp:400-403). -/
theorem C1_no_move_terminal {Pos : Type} (env : Env Pos) (limits : Limits) (nt : NodeType)
    (n : Nat) (alpha beta : Score) (depth : Int) (ply : Nat) (pos : Pos) (st : SState)
    (hdepth : 1 ≤ depth)
    (hstop : env.shouldStop st.nbNodes = false) (habort : st.aborted = false)
    (hdraw : isDraw env pos = false) (hply : ply < MAX_PLY)
    (hcut : ∀ e, ttGet st (env.hash pos) = some e →
      ¬(PvNode nt = false ∧ e.depth ≥ depth ∧ tteScore e ply ≠ SCORE_NONE ∧
        ttBoundMatch e alpha beta ply = true))
    (hmoves : ∀ m ∈ env.mainMoves pos (ttHitMove (ttGet st (env.hash pos))),
      skipMove nt limits.searchMoves m = true) :
    pvSearch env limits (n + 1) nt alpha beta depth ply pos st =
      ⟨if env.inCheck pos then -SCORE_MATE + (ply : Int) else SCORE_DRAW, st,
        ExitKind.noMoves, []⟩ := by
  have hst1 : pvEntryState env nt st = st := by
    simp [pvEntryState, hstop]
  simp only [pvSearch, hst1, habort, hdraw]
  rw [if_neg (by omega : ¬depth ≤ 0)]
  simp only [Bool.and_false, Bool.false_eq_true, if_false, if_neg (by omega : ¬ply ≥ MAX_PLY)]
  split
  next e heq =>
    rw [heq] at hmoves
    rw [if_neg (hcut e heq)]
    exact pvLoopPhase_no_moves _ _ _ _ _ _ _ _ _ _ _ _ habort hmoves
  next heq =>
    rw [heq] at hmoves
    exact pvLoopPhase_no_moves _ _ _ _ _ _ _ _ _ _ _ _ habort hmoves

theorem C1_witness :
    pvSearch envBase limits0 1 NodeType.Root 0 1 1 0 () st0 =
      ⟨SCORE_DRAW, st0, ExitKind.noMoves, []⟩ :=
  C1_no_move_terminal envBase limits0 NodeType.Root 0 0 1 1 0 () st0 (le_refl 1) rfl rfl rfl
    (by decide) (fun e he => by simp [ttGet, st0] at he)
    (fun m hm => by simp [envBase] at hm)

/-- C10 (confirmed): at the root, when `limits.searchMoves` is non-empty and
contains none of the yielded legal moves, every move is skipped before
`nbMoves` is incremented (engine.cpp:361-362), so the move loop counts zero
moves and the node returns the terminal score
`inCheck ? -SCORE_MATE + 0 : SCORE_DRAW` (engine.cpp:400-403) even though
legal moves exist. -/
theorem C10_searchmoves_starvation {Pos : Type} (env : Env Pos) (limits : Limits)
    (n : Nat) (alpha beta : Score) (depth : Int) (pos : Pos) (st : SState)
    (hdepth : 1 ≤ depth) (habort : st.aborted = false) (hdraw : isDraw env pos = false)
    (hlegal : env.mainMoves pos (ttHitMove (ttGet st (env.hash pos))) ≠ [])
    (hsm : limits.searchMoves ≠ [])
    (hdisj : ∀ m ∈ env.mainMoves pos (ttHitMove (ttGet st (env.hash pos))),
      limits.searchMoves.contains m = false) :
    pvSearch env limits (n + 1) NodeType.Root alpha beta depth 0 pos st =
      ⟨if env.inCheck pos then -SCORE_MATE + ((0 : Nat) : Int) else SCORE_DRAW, st,
        ExitKind.noMoves, []⟩ := by
  have hmoves : ∀ m ∈ env.mainMoves pos (ttHitMove (ttGet st (env.hash pos))),
      skipMove NodeType.Root limits.searchMoves m = true := by
    intro m hm
    simp only [skipMove, RootNode, Bool.true_and, Bool.and_eq_true, decide_eq_true_eq,
      Bool.not_eq_true']
    exact ⟨List.length_pos.mpr hsm, hdisj m hm⟩
  have hst1 : pvEntryState env NodeType.Root st = st := by
    simp [pvEntryState, RootNode]
  simp only [pvSearch, hst1, habort, hdraw]
  rw [if_neg (by omega : ¬depth ≤ 0)]
  simp only [RootNode, Bool.not_true, Bool.false_and, Bool.false_eq_true, if_false,
    if_neg (by decide : ¬(0 : Nat) ≥ MAX_PLY)]
  split
  next e heq =>
    rw [heq] at hmoves
    rw [if_neg (fun h => absurd h.1 (by decide))]
    exact pvLoopPhase_no_moves _ _ _ _ _ _ _ _ _ _ _ _ habort hmoves
  next heq =>
    rw [heq] at hmoves
    exact pvLoopPhase_no_moves _ _ _ _ _ _ _ _ _ _ _ _ habort hmoves

/-- The `searchmoves` restriction used by the C10 witness. -/
def limitsSM : Limits := ⟨[7], 0⟩

theorem C10_witness :
    pvSearch envOneMove limitsSM 1 NodeType.Root 0 1 1 0 () st0 =
      ⟨SCORE_DRAW, st0, ExitKind.noMoves, []⟩ ∧
    envOneMove.mainMoves () MOVE_NONE ≠ [] := by
  constructor
  · exact C10_searchmoves_starvation envOneMove limitsSM 0 0 1 1 () st0 (le_refl 1) rfl rfl
      (by decide) (by decide) (by decide)
  · decide

/-- C9 (confirmed): `Engine::search` (engine.cpp:260-271) is a no-op while a
search is in progress — state unchanged, no worker dispatched; otherwise it
clears the TT, snapshots the (unchanged) root position and limits for the
worker, clears `aborted`, sets `searching`, and dispatches. -/
theorem C9_reentry_guard {Pos : Type} (e : EngineSt Pos) (limits : Limits) :
    (e.searching = true → engineSearch e limits = (e, none)) ∧
    (e.searching = false →
      engineSearch e limits =
        ({ e with aborted := false, searching := true, tt := [] },
          some ⟨e.rootPos, limits⟩)) := by
  constructor
  · intro h; simp [engineSearch, h]
  · intro h; simp [engineSearch, h]

/-- An engine currently searching, with a non-empty TT. -/
def engineBusy : EngineSt Unit := ⟨true, true, [(7, ⟨5, Bound.EXACT, 9, 3, SCORE_NONE⟩)], ()⟩

/-- An idle engine with a stale abort flag and a non-empty TT. -/
def engineIdle : EngineSt Unit := ⟨false, true, [(7, ⟨5, Bound.EXACT, 9, 3, SCORE_NONE⟩)], ()⟩

theorem C9_witness :
    engineSearch engineBusy limits0 = (engineBusy, none) ∧
    engineSearch engineIdle limits0 =
      ({ engineIdle with aborted := false, searching := true, tt := [] },
        some ⟨engineIdle.rootPos, limits0⟩) :=
  ⟨(C9_reentry_guard engineBusy limits0).1 rfl, (C9_reentry_guard engineIdle limits0).2 rfl⟩

/-- C3 (confirmed): at a node that reaches the TT probe (depth ≥ 1, entry
gates passed), a transposition-table cutoff happens exactly when the node is
not a PV node, the probe hit, the stored depth is at least the current depth,
the ply-adjusted stored score is not `SCORE_NONE` and
`boundMatch(alpha, beta, ply)` holds (engine.cpp:347-353); on cutoff the
ply-adjusted stored score is returned without searching moves; and at PV nodes
(including the root) no call whatsoever exits through the TT cutoff. -/
theorem C3_tt_cutoff {Pos : Type} (env : Env Pos) (limits : Limits) (nt : NodeType) (n : Nat)
    (alpha beta : Score) (depth : Int) (ply : Nat) (pos : Pos) (st : SState)
    (hdepth : 1 ≤ depth)
    (hgate : RootNode nt = true ∨ (pvEntryState env nt st).aborted = false)
    (hdraw : isDraw env pos = false) (hply : ply < MAX_PLY) :
    ((pvSearch env limits (n + 1) nt alpha beta depth ply pos st).exitKind = ExitKind.ttCutoff ↔
      PvNode nt = false ∧ ∃ e, ttGet st (env.hash pos) = some e ∧ e.depth ≥ depth ∧
        tteScore e ply ≠ SCORE_NONE ∧ ttBoundMatch e alpha beta ply = true) ∧
    (∀ e, ttGet st (env.hash pos) = some e → PvNode nt = false → e.depth ≥ depth →
      tteScore e ply ≠ SCORE_NONE → ttBoundMatch e alpha beta ply = true →
      pvSearch env limits (n + 1) nt alpha beta depth ply pos st =
        ⟨tteScore e ply, pvEntryState env nt st, ExitKind.ttCutoff, []⟩) ∧
    (∀ (nt2 : NodeType) (m : Nat) (a b : Score) (d : Int) (p : Nat) (ps : Pos) (s : SState),
      PvNode nt2 = true →
      (pvSearch env limits m nt2 a b d p ps s).exitKind ≠ ExitKind.ttCutoff) := by
  have hab : (!RootNode nt && (pvEntryState env nt st).aborted) = false := by
    rcases hgate with h | h <;> simp [h]
  have hred : pvSearch env limits (n + 1) nt alpha beta depth ply pos st =
      (match ttGet st (env.hash pos) with
        | some e =>
          if PvNode nt = false ∧ e.depth ≥ depth ∧ tteScore e ply ≠ SCORE_NONE ∧
              ttBoundMatch e alpha beta ply = true then
            ⟨tteScore e ply, pvEntryState env nt st, ExitKind.ttCutoff, []⟩
          else
            pvLoopPhase env nt limits.searchMoves
              (fun nt' a b p s => pvSearch env limits n nt' a b (depth - 1) (ply + 1) p s)
              alpha beta depth ply pos (env.inCheck pos) e.move (pvEntryState env nt st)
        | none =>
          pvLoopPhase env nt limits.searchMoves
            (fun nt' a b p s => pvSearch env limits n nt' a b (depth - 1) (ply + 1) p s)
            alpha beta depth ply pos (env.inCheck pos) MOVE_NONE (pvEntryState env nt st)) := by
    simp only [pvSearch, if_neg (by omega : ¬depth ≤ 0), hab, Bool.false_eq_true, if_false,
      hdraw, if_neg (by omega : ¬ply ≥ MAX_PLY), ttGet_pvEntryState]
  refine ⟨?_, ?_, ?_⟩
  · rw [hred]
    split
    next e heq =>
      split
      next hcond =>
        exact iff_of_true rfl ⟨hcond.1, e, heq, hcond.2.1, hcond.2.2.1, hcond.2.2.2⟩
      next hcond =>
        refine iff_of_false
          (exitKind_ne_ttCutoff_of_pvLoop (pvLoopPhase_exitKind _ _ _ _ _ _ _ _ _ _ _ _)) ?_
        rintro ⟨hpv, e2, heq2, hd2, hs2, hb2⟩
        rw [heq] at heq2
        cases heq2
        exact hcond ⟨hpv, hd2, hs2, hb2⟩
    next heq =>
      refine iff_of_false
        (exitKind_ne_ttCutoff_of_pvLoop (pvLoopPhase_exitKind _ _ _ _ _ _ _ _ _ _ _ _)) ?_
      rintro ⟨hpv, e2, heq2, _⟩
      rw [heq] at heq2
      cases heq2
  · intro e heq hpv hd hs hb
    rw [hred]
    split
    next e2 heq2 =>
      rw [heq] at heq2
      cases heq2
      rw [if_pos ⟨hpv, hd, hs, hb⟩]
    next heq2 =>
      rw [heq] at heq2
      cases heq2
  · intro nt2 m a b d p ps s hpv
    match m with
    | 0 => simp [pvSearch]
    | m + 1 =>
      simp only [pvSearch]
      repeat' split
      all_goals
        first
        | exact qSearch_exitKind_ne_ttCutoff _ _ _ _ _ _ _ _
        | exact exitKind_ne_ttCutoff_of_pvLoop (pvLoopPhase_exitKind _ _ _ _ _ _ _ _ _ _ _ _)
        | simp_all

theorem C3_witness :
    pvSearch envTT limits0 1 NodeType.NonPV 0 1 1 2 () stTT =
      ⟨tteScore ⟨5, Bound.EXACT, 9, 3, SCORE_NONE⟩ 2, pvEntryState envTT NodeType.NonPV stTT,
        ExitKind.ttCutoff, []⟩ :=
  (C3_tt_cutoff envTT limits0 NodeType.NonPV 0 0 1 1 2 () stTT (le_refl 1) (Or.inr rfl) rfl
    (by decide)).2.1 ⟨5, Bound.EXACT, 9, 3, SCORE_NONE⟩ rfl rfl (by decide) (by decide)
    (by decide)

theorem exitKind_ne_standPat_of_loop {res : SearchResult}
    (h : res.exitKind = ExitKind.loopAbort ∨ res.exitKind = ExitKind.normal) :
    res.exitKind ≠ ExitKind.standPat := by
  rcases h with h | h <;> simp [h]

theorem qSearch_loopPhase_eq {Pos : Type} (env : Env Pos) (n : Nat) (alpha beta : Score)
    (depth : Int) (ply : Nat) (pos : Pos) (st : SState)
    (hab : (qEntryState env st).aborted = false) (hdraw : isDraw env pos = false)
    (hply : ply < MAX_PLY)
    (hnsp : ¬(env.inCheck pos = false ∧
      (if env.inCheck pos then SCORE_NONE else env.evalFn pos) ≥ beta)) :
    qSearch env (n + 1) alpha beta depth ply pos st =
      qLoopPhase env (fun a b p s => qSearch env n a b (depth - 1) (ply + 1) p s) beta alpha
        ply pos (env.inCheck pos) (if env.inCheck pos then SCORE_NONE else env.evalFn pos)
        (qEntryState env st)
        (if env.inCheck pos = false ∧
            (if env.inCheck pos then SCORE_NONE else env.evalFn pos) > alpha then
          (if env.inCheck pos then SCORE_NONE else env.evalFn pos)
        else alpha)
        (if env.inCheck pos then -SCORE_MATE + (ply : Int)
          else (if env.inCheck pos then SCORE_NONE else env.evalFn pos)) := by
  simp only [qSearch]
  rw [if_neg (by simp [hab]), if_neg (by simp [hdraw]), if_neg (by omega), if_neg hnsp]

/-- C5 (confirmed): in `qSearch`, when the entry gates pass, the standing-pat
evaluation happens only when the side to move is not in check: then `eval ≥
beta` returns `eval` immediately, and otherwise the move loop is entered with
`alpha` raised to `eval` when `eval > alpha` and `bestScore = eval`; when in
check, the loop is entered with `bestScore = -SCORE_MATE + ply`, `alpha`
unchanged, `eval = SCORE_NONE`, and no standing-pat exit can occur
(engine.cpp:428-429, 453-472). -/
theorem C5_standing_pat {Pos : Type} (env : Env Pos) (n : Nat) (alpha beta : Score)
    (depth : Int) (ply : Nat) (pos : Pos) (st : SState)
    (hab : (qEntryState env st).aborted = false)
    (hdraw : isDraw env pos = false) (hply : ply < MAX_PLY) :
    (env.inCheck pos = false → env.evalFn pos ≥ beta →
      qSearch env (n + 1) alpha beta depth ply pos st =
        ⟨env.evalFn pos, qEntryState env st, ExitKind.standPat, []⟩) ∧
    (env.inCheck pos = false → env.evalFn pos < beta →
      qSearch env (n + 1) alpha beta depth ply pos st =
        qLoopPhase env (fun a b p s => qSearch env n a b (depth - 1) (ply + 1) p s) beta alpha
          ply pos false (env.evalFn pos) (qEntryState env st)
          (if env.evalFn pos > alpha then env.evalFn pos else alpha) (env.evalFn pos)) ∧
    (env.inCheck pos = true →
      qSearch env (n + 1) alpha beta depth ply pos st =
        qLoopPhase env (fun a b p s => qSearch env n a b (depth - 1) (ply + 1) p s) beta alpha
          ply pos true SCORE_NONE (qEntryState env st) alpha (-SCORE_MATE + (ply : Int)) ∧
      (qSearch env (n + 1) alpha beta depth ply pos st).exitKind ≠ ExitKind.standPat) := by
  refine ⟨?_, ?_, ?_⟩
  · intro h1 h2
    simp only [qSearch]
    rw [if_neg (by simp [hab]), if_neg (by simp [hdraw]), if_neg (by omega)]
    rw [if_pos (by simp [h1]; exact h2)]
    simp [h1]
  · intro h1 h2
    have heq := qSearch_loopPhase_eq env n alpha beta depth ply pos st hab hdraw hply
      (by simp [h1]; exact h2)
    rw [heq]
    simp [h1]
  · intro h1
    have heq := qSearch_loopPhase_eq env n alpha beta depth ply pos st hab hdraw hply
      (by simp [h1])
    constructor
    · rw [heq]
      simp [h1]
    · rw [heq]
      exact exitKind_ne_standPat_of_loop (qLoopPhase_exitKind _ _ _ _ _ _ _ _ _ _ _)

theorem C5_witness :
    (qSearch envBase 1 0 3 0 0 () st0 = ⟨5, qEntryState envBase st0, ExitKind.standPat, []⟩) ∧
    (qSearch envBase 1 0 10 0 0 () st0 =
      qLoopPhase envBase (fun a b p s => qSearch envBase 0 a b (0 - 1) (0 + 1) p s) 10 0
        0 () false 5 (qEntryState envBase st0) 5 5) :=
  ⟨(C5_standing_pat envBase 0 0 3 0 0 () st0 rfl rfl (by decide)).1 rfl (by decide),
    (C5_standing_pat envBase 0 0 10 0 0 () st0 rfl rfl (by decide)).2.1 rfl (by decide)⟩

theorem qLoopPhase_ttLog {Pos : Type} (env : Env Pos)
    (child : Score → Score → Pos → SState → SearchResult)
    (beta alphaOrig : Score) (ply : Nat) (pos : Pos) (inCheck : Bool) (eval : Score)
    (st : SState) (alpha1 bestScore1 : Score)
    (hexit : (qLoopPhase env child beta alphaOrig ply pos inCheck eval st alpha1
      bestScore1).exitKind = ExitKind.normal) :
    ∃ w : TTWrite,
      (qLoopPhase env child beta alphaOrig ply pos inCheck eval st alpha1
        bestScore1).st.ttLog.head? = some w ∧
      w.depth = (if inCheck then 1 else 0) ∧
      w.staticEval = eval ∧
      w.score = (qLoopPhase env child beta alphaOrig ply pos inCheck eval st alpha1
        bestScore1).score ∧
      w.bound = (if (qLoopPhase env child beta alphaOrig ply pos inCheck eval st alpha1
            bestScore1).score ≥ beta then Bound.LOWER
          else if (qLoopPhase env child beta alphaOrig ply pos inCheck eval st alpha1
            bestScore1).score ≤ alphaOrig then Bound.UPPER
          else Bound.EXACT) ∧
      w.ply = ply ∧ w.hash = env.hash pos ∧ w.pvFlag = false := by
  simp only [qLoopPhase] at hexit ⊢
  split
  next h =>
    rw [if_pos h] at hexit
    simp at hexit
  next h =>
    rw [if_neg h] at hexit
    exact ⟨_, rfl, rfl, rfl, rfl, rfl, rfl, rfl, rfl⟩

/-- C6 (confirmed): when `qSearch` completes its move loop without being
aborted (exit tag `normal`), the logged TT store has `depth = inCheck ? 1 : 0`,
`staticEval = eval` when not in check and `SCORE_NONE` when in check, and
`bound = LOWER` if `bestScore ≥ beta`, `UPPER` if `bestScore ≤` the original
`alpha`, `EXACT` otherwise — with no PV-node conjunct (engine.cpp:508-511). -/
theorem C6_qsearch_tt_store {Pos : Type} (env : Env Pos) (n : Nat) (alpha beta : Score)
    (depth : Int) (ply : Nat) (pos : Pos) (st : SState)
    (hexit : (qSearch env (n + 1) alpha beta depth ply pos st).exitKind = ExitKind.normal) :
    ∃ w : TTWrite,
      (qSearch env (n + 1) alpha beta depth ply pos st).st.ttLog.head? = some w ∧
      w.depth = (if env.inCheck pos then 1 else 0) ∧
      w.staticEval = (if env.inCheck pos then SCORE_NONE else env.evalFn pos) ∧
      w.score = (qSearch env (n + 1) alpha beta depth ply pos st).score ∧
      w.bound =
        (if (qSearch env (n + 1) alpha beta depth ply pos st).score ≥ beta then Bound.LOWER
          else if (qSearch env (n + 1) alpha beta depth ply pos st).score ≤ alpha then
            Bound.UPPER
          else Bound.EXACT) ∧
      w.ply = ply ∧ w.hash = env.hash pos ∧ w.pvFlag = false := by
  cases hab : (qEntryState env st).aborted with
  | true =>
    exfalso
    simp only [qSearch] at hexit
    rw [if_pos hab] at hexit
    simp at hexit
  | false =>
    cases hdr : isDraw env pos with
    | true =>
      exfalso
      simp only [qSearch] at hexit
      rw [if_neg (by simp [hab]), if_pos hdr] at hexit
      simp at hexit
    | false =>
      by_cases hply : ply ≥ MAX_PLY
      · exfalso
        simp only [qSearch] at hexit
        rw [if_neg (by simp [hab]), if_neg (by simp [hdr]), if_pos hply] at hexit
        simp at hexit
      · by_cases hsp : env.inCheck pos = false ∧
            (if env.inCheck pos then SCORE_NONE else env.evalFn pos) ≥ beta
        · exfalso
          simp only [qSearch] at hexit
          rw [if_neg (by simp [hab]), if_neg (by simp [hdr]), if_neg hply, if_pos hsp] at hexit
          simp at hexit
        · have heq := qSearch_loopPhase_eq env n alpha beta depth ply pos st hab hdr
            (by omega) hsp
          rw [heq] at hexit ⊢
          exact qLoopPhase_ttLog _ _ _ _ _ _ _ _ _ _ _ hexit

theorem C6_witness :
    ∃ w : TTWrite,
      (qSearch envBase 1 0 10 0 0 () st0).st.ttLog.head? = some w ∧
      w.depth = (if envBase.inCheck () then 1 else 0) ∧
      w.staticEval = (if envBase.inCheck () then SCORE_NONE else envBase.evalFn ()) ∧
      w.score = (qSearch envBase 1 0 10 0 0 () st0).score ∧
      w.bound =
        (if (qSearch envBase 1 0 10 0 0 () st0).score ≥ 10 then Bound.LOWER
          else if (qSearch envBase 1 0 10 0 0 () st0).score ≤ 0 then Bound.UPPER
          else Bound.EXACT) ∧
      w.ply = 0 ∧ w.hash = envBase.hash () ∧ w.pvFlag = false :=
  C6_qsearch_tt_store envBase 0 0 10 0 0 () st0 (by decide)

theorem mem_calls_left {x : NodeType × Score × Score} {c : Prop} [Decidable c] (hc : c)
    (l : List (NodeType × Score × Score)) : x ∈ (if c then [x] else []) ++ l := by
  rw [if_pos hc]
  exact List.mem_append_left _ (List.mem_singleton.mpr rfl)

theorem mem_calls_right {x : NodeType × Score × Score} {c : Prop} [Decidable c]
    (hc : c) (l : List (NodeType × Score × Score)) : x ∈ l ++ (if c then [x] else []) := by
  rw [if_pos hc]
  exact List.mem_append_right _ (List.mem_singleton.mpr rfl)

/-- C4 (confirmed): in the main move loop body, for every yielded (non-skipped)
move, the zero-window scout search with window `(-alpha-1, -alpha)` at `NonPV`
is performed iff `!PvNode || nbMoves > 1`, and the full-window search with
window `(-beta, -alpha)` at `PV` is performed iff
`PvNode && (nbMoves == 1 || (score > alpha && (RootNode || score < beta)))`,
where `score` is the negated scout result and `nbMoves` counts this move
(engine.cpp:369-377). -/
theorem C4_pvs_scheme {Pos : Type} (env : Env Pos) (nt : NodeType) (searchMoves : List Move)
    (child : NodeType → Score → Score → Pos → SState → SearchResult)
    (beta : Score) (pos : Pos) (m : Move) (ls : LoopState)
    (hskip : skipMove nt searchMoves m = false) :
    ((NodeType.NonPV, -ls.alpha - 1, -ls.alpha) ∈
        (pvLoopStep env nt searchMoves child beta pos m ls).calls ↔
      (PvNode nt = false ∨ ls.nbMoves + 1 > 1)) ∧
    ((NodeType.PV, -beta, -ls.alpha) ∈
        (pvLoopStep env nt searchMoves child beta pos m ls).calls ↔
      (PvNode nt = true ∧ (ls.nbMoves + 1 = 1 ∨
        (-(child NodeType.NonPV (-ls.alpha - 1) (-ls.alpha) (env.doMove pos m)
            { ls.st with nbNodes := ls.st.nbNodes + 1 }).score > ls.alpha ∧
          (RootNode nt = true ∨
            -(child NodeType.NonPV (-ls.alpha - 1) (-ls.alpha) (env.doMove pos m)
              { ls.st with nbNodes := ls.st.nbNodes + 1 }).score < beta))))) := by
  have hcalls : (pvLoopStep env nt searchMoves child beta pos m ls).calls =
      (if (!PvNode nt || decide (ls.nbMoves + 1 > 1)) = true then
        [(NodeType.NonPV, -ls.alpha - 1, -ls.alpha)] else []) ++
      (if (PvNode nt && (decide (ls.nbMoves + 1 = 1) ||
          (decide ((if (!PvNode nt || decide (ls.nbMoves + 1 > 1)) = true then
              -(child NodeType.NonPV (-ls.alpha - 1) (-ls.alpha) (env.doMove pos m)
                { ls.st with nbNodes := ls.st.nbNodes + 1 }).score
            else env.uninit) > ls.alpha) &&
            (RootNode nt ||
              decide ((if (!PvNode nt || decide (ls.nbMoves + 1 > 1)) = true then
                -(child NodeType.NonPV (-ls.alpha - 1) (-ls.alpha) (env.doMove pos m)
                  { ls.st with nbNodes := ls.st.nbNodes + 1 }).score
              else env.uninit) < beta))))) = true then
        [(NodeType.PV, -beta, -ls.alpha)] else []) := by
    simp only [pvLoopStep, hskip, Bool.false_eq_true, if_false]
    repeat' split
    all_goals rfl
  constructor
  · rw [hcalls]
    cases hA : (!PvNode nt || decide (ls.nbMoves + 1 > 1)) with
    | true =>
      refine iff_of_true (mem_calls_left rfl _) ?_
      have h := hA
      simp only [Bool.or_eq_true, Bool.not_eq_true', decide_eq_true_eq] at h
      exact h
    | false =>
      refine iff_of_false ?_ ?_
      · simp only [Bool.false_eq_true, if_false, List.nil_append]
        split <;> simp
      · have h := hA
        simp only [Bool.or_eq_false_iff, Bool.not_eq_false', decide_eq_false_iff_not] at h
        rintro (hR | hR)
        · rw [h.1] at hR; cases hR
        · exact h.2 hR
  · rw [hcalls]
    by_cases hp : PvNode nt = true
    · by_cases h1 : ls.nbMoves + 1 = 1
      · refine iff_of_true ?_ ⟨hp, Or.inl h1⟩
        refine mem_calls_right ?_ _
        simp [hp, h1]
      · have hA : (!PvNode nt || decide (ls.nbMoves + 1 > 1)) = true := by
          simp [hp]; omega
        by_cases hc : (-(child NodeType.NonPV (-ls.alpha - 1) (-ls.alpha) (env.doMove pos m)
              { ls.st with nbNodes := ls.st.nbNodes + 1 }).score > ls.alpha ∧
            (RootNode nt = true ∨
              -(child NodeType.NonPV (-ls.alpha - 1) (-ls.alpha) (env.doMove pos m)
                { ls.st with nbNodes := ls.st.nbNodes + 1 }).score < beta))
        · refine iff_of_true ?_ ⟨hp, Or.inr hc⟩
          have hB : (PvNode nt && (decide (ls.nbMoves + 1 = 1) ||
              (decide ((if (!PvNode nt || decide (ls.nbMoves + 1 > 1)) = true then
                  -(child NodeType.NonPV (-ls.alpha - 1) (-ls.alpha) (env.doMove pos m)
                    { ls.st with nbNodes := ls.st.nbNodes + 1 }).score
                else env.uninit) > ls.alpha) &&
                (RootNode nt ||
                  decide ((if (!PvNode nt || decide (ls.nbMoves + 1 > 1)) = true then
                    -(child NodeType.NonPV (-ls.alpha - 1) (-ls.alpha) (env.doMove pos m)
                      { ls.st with nbNodes := ls.st.nbNodes + 1 }).score
                  else env.uninit) < beta))))) = true := by
            simp only [if_pos hA]
            rcases hc.2 with hr | hr <;> simp [hp, hc.1, hr]
          exact mem_calls_right hB _
        · refine iff_of_false ?_ ?_
          · have hB : (PvNode nt && (decide (ls.nbMoves + 1 = 1) ||
                (decide ((if (!PvNode nt || decide (ls.nbMoves + 1 > 1)) = true then
                    -(child NodeType.NonPV (-ls.alpha - 1) (-ls.alpha) (env.doMove pos m)
                      { ls.st with nbNodes := ls.st.nbNodes + 1 }).score
                  else env.uninit) > ls.alpha) &&
                  (RootNode nt ||
                    decide ((if (!PvNode nt || decide (ls.nbMoves + 1 > 1)) = true then
                      -(child NodeType.NonPV (-ls.alpha - 1) (-ls.alpha) (env.doMove pos m)
                        { ls.st with nbNodes := ls.st.nbNodes + 1 }).score
                    else env.uninit) < beta))))) = false := by
              simp only [if_pos hA]
              simp only [hp, Bool.true_and]
              simp only [Bool.or_eq_false_iff, Bool.and_eq_false_iff,
                decide_eq_false_iff_not]
              refine ⟨h1, ?_⟩
              by_cases hgt : -(child NodeType.NonPV (-ls.alpha - 1) (-ls.alpha)
                  (env.doMove pos m)
                  { ls.st with nbNodes := ls.st.nbNodes + 1 }).score > ls.alpha
              · right
                constructor
                · rcases Bool.eq_false_or_eq_true (RootNode nt) with hr | hr
                  · exact absurd ⟨hgt, Or.inl hr⟩ hc
                  · exact hr
                · intro hlt
                  exact hc ⟨hgt, Or.inr hlt⟩
              · left
                exact hgt
            simp only [hB, Bool.false_eq_true, if_false, List.append_nil]
            split <;> simp
          · rintro ⟨-, hR | hR⟩
            · exact h1 hR
            · exact hc hR
    · have hp' : PvNode nt = false := by
        revert hp; cases PvNode nt <;> simp
      refine iff_of_false ?_ ?_
      · simp only [hp', Bool.false_and, Bool.false_eq_true, if_false, List.append_nil]
        split <;> simp
      · rintro ⟨h1, -⟩
        rw [hp'] at h1; cases h1

theorem C4_witness :
    ((NodeType.NonPV, -0 - 1, -0) ∈
        (pvLoopStep envBase NodeType.NonPV []
          (fun _ _ _ _ s => ⟨0, s, ExitKind.normal, []⟩) 1 () 4
          ⟨st0, 0, 0, -SCORE_INFINITE, MOVE_NONE, []⟩).calls ↔
      (PvNode NodeType.NonPV = false ∨ 0 + 1 > 1)) ∧
    ((NodeType.PV, -1, -0) ∈
        (pvLoopStep envBase NodeType.NonPV []
          (fun _ _ _ _ s => ⟨0, s, ExitKind.normal, []⟩) 1 () 4
          ⟨st0, 0, 0, -SCORE_INFINITE, MOVE_NONE, []⟩).calls ↔
      (PvNode NodeType.NonPV = true ∧ (0 + 1 = 1 ∨
        (-((fun _ _ _ _ s => (⟨0, s, ExitKind.normal, []⟩ : SearchResult)) NodeType.NonPV
            (-0 - 1) (-0) (envBase.doMove () 4)
            { st0 with nbNodes := st0.nbNodes + 1 }).score > 0 ∧
          (RootNode NodeType.NonPV = true ∨
            -((fun _ _ _ _ s => (⟨0, s, ExitKind.normal, []⟩ : SearchResult)) NodeType.NonPV
              (-0 - 1) (-0) (envBase.doMove () 4)
              { st0 with nbNodes := st0.nbNodes + 1 }).score < 1))))) :=
  C4_pvs_scheme envBase NodeType.NonPV []
    (fun _ _ _ _ s => ⟨0, s, ExitKind.normal, []⟩) 1 () 4
    ⟨st0, 0, 0, -SCORE_INFINITE, MOVE_NONE, []⟩ rfl

/-- C7 (confirmed): in the iterative-deepening loop, an iteration whose root
search ends with the abort flag set is discarded — no adoption of
`bestPv`/`bestScore`/`completedDepth`, no progress event — only when
`depth > 1` (engine.cpp:290); the depth-1 iteration's PV and score are always
adopted and reported, so a completed depth ≥ 1 is available under any time
limit (engine.cpp:284-299). -/
theorem C7_id_adoption {Pos : Type} (env : Env Pos) (limits : Limits) (pos : Pos)
    (f : Nat) (st : SState) (best : Best) (d : Nat) :
    (2 ≤ d → d < MAX_PLY →
      (pvSearch env limits searchFuel NodeType.Root (-SCORE_INFINITE) SCORE_INFINITE
        (d : Int) 0 pos st).st.aborted = true →
      idLoop env limits pos (f + 1) d st best =
        ⟨[], d, best,
          (pvSearch env limits searchFuel NodeType.Root (-SCORE_INFINITE) SCORE_INFINITE
            (d : Int) 0 pos st).st⟩) ∧
    ((idLoop env limits pos (f + 1) 1 st best).trace.head? = some
      (Action.progress 1
        (pvSearch env limits searchFuel NodeType.Root (-SCORE_INFINITE) SCORE_INFINITE
          ((1 : Nat) : Int) 0 pos st).pv
        (pvSearch env limits searchFuel NodeType.Root (-SCORE_INFINITE) SCORE_INFINITE
          ((1 : Nat) : Int) 0 pos st).score) ∧
      1 ≤ (idLoop env limits pos (f + 1) 1 st best).best.completedDepth) := by
  constructor
  · intro h2 hlt hab
    simp only [idLoop]
    rw [if_pos hlt, if_pos ⟨by omega, hab⟩]
  · simp only [idLoop]
    rw [if_pos (by decide : (1 : Nat) < MAX_PLY), if_neg (by simp)]
    split
    · exact ⟨rfl, le_refl 1⟩
    · refine ⟨rfl, ?_⟩
      rcases idLoop_best_cases env limits pos f 2
          (pvSearch env limits searchFuel NodeType.Root (-SCORE_INFINITE) SCORE_INFINITE
            ((1 : Nat) : Int) 0 pos st).st
          ⟨1, (pvSearch env limits searchFuel NodeType.Root (-SCORE_INFINITE) SCORE_INFINITE
              ((1 : Nat) : Int) 0 pos st).pv,
            (pvSearch env limits searchFuel NodeType.Root (-SCORE_INFINITE) SCORE_INFINITE
              ((1 : Nat) : Int) 0 pos st).score⟩ with h | h
      · exact le_of_eq (congrArg Best.completedDepth h).symm
      · exact le_trans (by omega) h

theorem C7_witness :
    idLoop envOneMove limits0 () 1 2 stAborted ⟨0, [], 0⟩ =
      ⟨[], 2, ⟨0, [], 0⟩,
        (pvSearch envOneMove limits0 searchFuel NodeType.Root (-SCORE_INFINITE) SCORE_INFINITE
          ((2 : Nat) : Int) 0 () stAborted).st⟩ ∧
    1 ≤ (idLoop envBase limits0 () 1 1 st0 ⟨0, [], 0⟩).best.completedDepth :=
  ⟨(C7_id_adoption envOneMove limits0 () 0 stAborted ⟨0, [], 0⟩ 2).1 (by decide) (by decide)
      (by decide),
    (C7_id_adoption envBase limits0 () 0 st0 ⟨0, [], 0⟩ 2).2.2⟩

/-- C8 (confirmed): on `idSearch` exit, one extra progress event carrying the
accepted PV and score is emitted exactly when the loop's final `depth` differs
from `completedDepth`; the finish event is emitted exactly once, after every
progress event; and `searching` is cleared last, only after the finish event
(engine.cpp:300-307). -/
theorem C8_events {Pos : Type} (env : Env Pos) (limits : Limits) (pos : Pos) (st : SState) :
    ((idSearch env limits pos st).1 =
      (idLoop env limits pos MAX_PLY 1 st ⟨0, [], env.uninit⟩).trace ++
        ((if (idLoop env limits pos MAX_PLY 1 st ⟨0, [], env.uninit⟩).depth ≠
              (idLoop env limits pos MAX_PLY 1 st ⟨0, [], env.uninit⟩).best.completedDepth then
            [Action.progress (idLoop env limits pos MAX_PLY 1 st ⟨0, [], env.uninit⟩).depth
              (idLoop env limits pos MAX_PLY 1 st ⟨0, [], env.uninit⟩).best.pv
              (idLoop env limits pos MAX_PLY 1 st ⟨0, [], env.uninit⟩).best.score]
          else []) ++
          [Action.finish (idLoop env limits pos MAX_PLY 1 st ⟨0, [], env.uninit⟩).depth
              (idLoop env limits pos MAX_PLY 1 st ⟨0, [], env.uninit⟩).best.pv
              (idLoop env limits pos MAX_PLY 1 st ⟨0, [], env.uninit⟩).best.score,
            Action.clearSearching])) ∧
    (∀ a ∈ (idLoop env limits pos MAX_PLY 1 st ⟨0, [], env.uninit⟩).trace,
      a.isProgress = true) ∧
    countFinish (idSearch env limits pos st).1 = 1 ∧
    (idSearch env limits pos st).1.getLast? = some Action.clearSearching := by
  refine ⟨rfl, idLoop_trace_progress env limits pos MAX_PLY 1 st ⟨0, [], env.uninit⟩, ?_, ?_⟩
  · have h0 : (idLoop env limits pos MAX_PLY 1 st ⟨0, [], env.uninit⟩).trace.countP
        (fun a => match a with | Action.finish _ _ _ => true | _ => false) = 0 := by
      rw [List.countP_eq_zero]
      intro a ha
      have hp := idLoop_trace_progress env limits pos MAX_PLY 1 st ⟨0, [], env.uninit⟩ a ha
      cases a <;> simp_all [Action.isProgress]
    simp only [idSearch, countFinish, List.countP_append, h0]
    split <;> simp [List.countP_cons]
  · have hlast : ∀ (A B : List Action) (x y : Action),
        (A ++ (B ++ [x, y])).getLast? = some y := by
      intro A B x y
      rw [show A ++ (B ++ [x, y]) = (A ++ (B ++ [x])) ++ [y] by simp]
      exact List.getLast?_concat _
    simp only [idSearch]
    exact hlast _ _ _ _

/-- A depth-1 search limit, used by the C8 witness. -/
def limitsD1 : Limits := ⟨[], 1⟩

theorem C8_witness :
    countFinish (idSearch envBase limitsD1 () st0).1 = 1 ∧
    (idSearch envBase limitsD1 () st0).1.getLast? = some Action.clearSearching :=
  ⟨(C8_events envBase limitsD1 () st0).2.2.1, (C8_events envBase limitsD1 () st0).2.2.2⟩

end BabChess
